/-
Verification of the bounded-context agent-loop controller of the DeepCode
repository (`workflows/code_implementation_workflow_index.py`,
`tools/gpt_client.py`, `tools/command_executor.py`) against its
natural-language specification.

The Python source is shallowly embedded: pure functions become Lean
functions, the stateful implementation loop becomes explicit state passing
structured as a fuel-indexed recursion (the source loop is bounded by
`max_iterations`), exceptions become `Except` values, and every external
collaborator (the model backend, tool execution, the wall clock) is an
explicit oracle argument.  The `CodeImplementationAgent` and
`ConciseMemoryAgent` classes are not part of the available source tree;
definitions that stand in for them are modelled from the specification and
marked as such in their doc comments.
-/
import Mathlib

namespace DeepCode

/-- A role-tagged conversation message, embedding the Python dicts
`{"role": ..., "content": ...}` used throughout the workflow. -/
structure Message where
  role : String
  content : String
deriving DecidableEq, Repr

/-- Substring containment, embedding the Python expression `needle in haystack`
(used by the completion detector and the error classifier).  An empty needle is
contained in every string, exactly as in Python. -/
def containsSub (haystack needle : String) : Bool :=
  let h := haystack.data
  let n := needle.data
  (List.range (h.length + 1)).any (fun i => n.isPrefixOf (h.drop i))

/-- Text of the success-guidance template before the files count (source: `_generate_success_guidance`). -/
def successGuidancePre : String :=
  "‚úÖ File implementation completed successfully!\n\nüìä **Progress Status:** "

/-- Text of the success-guidance template after the files count (source: `_generate_success_guidance`). -/
def successGuidanceSuf : String :=
  " files implemented\n\nüéØ **Next Action:** Check if ALL files from the reproduction plan are implemented.\n\n‚ö° **Decision Process:**\n1. **If ALL files are implemented:** Use `execute_python` or `execute_bash` to test the complete implementation, then respond \"**implementation complete**\" to end the conversation\n2. **If MORE files need implementation:** Continue with dependency-aware workflow:\n   - **Start with `read_code_mem`** to understand existing implementations and dependencies\n   - **Optionally use `search_code_references`** for reference patterns (OPTIONAL - use for inspiration only, original paper specs take priority)\n   - **Then `write_file`** to implement the new component\n   - **Finally: Test** if needed\n\nüí° **Key Point:** Always verify completion status before continuing with new file creation."

/-- Text of the error-guidance template (source: `_generate_error_guidance`). -/
def errorGuidanceText : String :=
  "‚ùå Error detected during file implementation.\n\nüîß **Action Required:**\n1. Review the error details above\n2. Fix the identified issue\n3. **Check if ALL files from the reproduction plan are implemented:**\n   - **If YES:** Use `execute_python` or `execute_bash` to test the complete implementation, then respond \"**implementation complete**\" to end the conversation\n   - **If NO:** Continue with proper development cycle for next file:\n     - **Start with `read_code_mem`** to understand existing implementations\n     - **Optionally use `search_code_references`** for reference patterns (OPTIONAL - for inspiration only)\n     - **Then `write_file`** to implement properly\n     - **Test** if needed\n4. Ensure proper error handling in future implementations\n\nüí° **Remember:** Always verify if all planned files are implemented before continuing with new file creation."

/-- Text of the no-tool-call guidance template before the files count (source: `_generate_no_tools_guidance`). -/
def noToolsGuidancePre : String :=
  "‚ö†Ô∏è No tool calls detected in your response.\n\nüìä **Current Progress:** "

/-- Text of the no-tool-call guidance template after the files count (source: `_generate_no_tools_guidance`). -/
def noToolsGuidanceSuf : String :=
  " files implemented\n\nüö® **Action Required:** You must use tools. **FIRST check if ALL files from the reproduction plan are implemented:**\n\n‚ö° **Decision Process:**\n1. **If ALL files are implemented:** Use `execute_python` or `execute_bash` to test the complete implementation, then respond \"**implementation complete**\" to end the conversation\n2. **If MORE files need implementation:** Follow the development cycle:\n   - **Start with `read_code_mem`** to understand existing implementations\n   - **Optionally use `search_code_references`** for reference patterns (OPTIONAL - for inspiration only)\n   - **Then `write_file`** to implement the new component\n   - **Finally: Test** if needed\n\nüö® **Critical:** Always verify completion status first, then use appropriate tools - not just explanations!"

/-- First fixed part of the initial task message, before the plan content (source: `implement_code_pure`). -/
def implementationMessagePre : String :=
  "**Task: Implement code based on the following reproduction plan**\n\n**Code Reproduction Plan:**\n"

/-- Middle fixed part of the initial task message, between the plan content and the working directory (source: `implement_code_pure`). -/
def implementationMessageMid : String :=
  "\n\n**Working Directory:** "

/-- Last fixed part of the initial task message, after the working directory (source: `implement_code_pure`). -/
def implementationMessageSuf : String :=
  "\n\n**Current Objective:** Begin implementation by analyzing the plan structure, examining the current project layout, and implementing the first foundation file according to the plan\x27s priority order."

/-- Header line prepended to the tool execution results block (source: `_compile_user_response`). -/
def toolResultsHeader : String :=
  "üîß **Tool Execution Results:**"

/-- Check-mark marker for successful commands (source: `command_executor.py`). -/
def checkMark : String :=
  "✅"

/-- Cross marker for failed commands (source: `command_executor.py`). -/
def crossMark : String :=
  "❌"

/-- Timer marker for command timeouts (source: `command_executor.py`). -/
def timerMark : String :=
  "⏱️"

/-- Collision marker for command exceptions (source: `command_executor.py`). -/
def boomMark : String :=
  "💥"

/-- Model of the Python method `str.strip()` (drops leading and trailing
whitespace). -/
def strip (s : String) : String :=
  String.mk (((s.data.dropWhile Char.isWhitespace).reverse.dropWhile
    Char.isWhitespace).reverse)

/-- Embeds `_validate_messages`: every message whose stripped content is empty
is dropped, and kept messages carry the stripped content (the source appends
the result of `.strip()` as the new content). -/
def validate_messages (messages : List Message) : List Message :=
  messages.filterMap (fun m =>
    let c := strip m.content
    if c = "" then none else some { role := m.role, content := c })

/-- Embeds the assignment of `response_content` in
`_pure_code_implementation_loop`: the model content is stripped, and an empty
result is replaced by the fixed continuation text. -/
def effectiveContent (c : String) : String :=
  let t := strip c
  if t = "" then "Continue implementing code files..." else t

/-- The fixed finite list of completion phrases checked by the loop
(source: the `any(keyword in response_content.lower() ...)` check in
`_pure_code_implementation_loop`). -/
def completionKeywords : List String :=
  ["all files implemented",
   "all phases completed",
   "reproduction plan fully implemented",
   "all code of repo implementation complete"]

/-- Model of the Python method `str.lower()` (character-wise ASCII lowering;
the phrases and markers compared in the source are ASCII). -/
def lowerStr (s : String) : String :=
  String.mk (s.data.map Char.toLower)

/-- Embeds the completion check of `_pure_code_implementation_loop`: true iff
the lowercased content contains one of the fixed completion phrases. -/
def declaresComplete (content : String) : Bool :=
  completionKeywords.any (fun keyword => containsSub (lowerStr content) keyword)

/-- Embeds `_generate_success_guidance`: the fixed success template with the
files-implemented count interpolated. -/
def generate_success_guidance (files_count : Nat) : String :=
  successGuidancePre ++ toString files_count ++ successGuidanceSuf

/-- Embeds `_generate_error_guidance`: a fixed template taking no arguments. -/
def generate_error_guidance : String :=
  errorGuidanceText

/-- Embeds `_generate_no_tools_guidance`: the fixed no-tool-call template with
the files-implemented count interpolated. -/
def generate_no_tools_guidance (files_count : Nat) : String :=
  noToolsGuidancePre ++ toString files_count ++ noToolsGuidanceSuf

/-- The outcome kinds the controller distinguishes when choosing a guidance
message (the `has_error` branch and the no-tool-call branch of
`_pure_code_implementation_loop`). -/
inductive RoundOutcomeKind where
  | success
  | error
  | noToolCall
deriving DecidableEq, Repr

/-- The guidance selection performed by `_pure_code_implementation_loop`:
`error` rounds get `_generate_error_guidance`, successful tool rounds get
`_generate_success_guidance`, rounds without tool calls get
`_generate_no_tools_guidance`. -/
def guidanceFor : RoundOutcomeKind → Nat → String
  | .success, files_count => generate_success_guidance files_count
  | .error, _ => generate_error_guidance
  | .noToolCall, files_count => generate_no_tools_guidance files_count
/-- Drops leading JSON whitespace characters (model of the whitespace handling
of Python `json.loads`). -/
def skipWs : List Char → List Char
  | [] => []
  | c :: rest =>
    if c = ' ' ∨ c = '\t' ∨ c = '\n' ∨ c = '\r' then skipWs rest else c :: rest

/-- A parsed JSON value (the Python objects `json.loads` produces): strings,
numbers (kept as their lexeme — their numeric value never matters to the
classifier), booleans, null, arrays and objects with ordered key/value
fields. -/
inductive Jv where
  | str (s : String)
  | num (lexeme : String)
  | bool (b : Bool)
  | null
  | arr (elems : List Jv)
  | obj (fields : List (String × Jv))

/-- The value of one hexadecimal digit, if any. -/
def hexVal (c : Char) : Option Nat :=
  if '0' ≤ c ∧ c ≤ '9' then some (c.toNat - '0'.toNat)
  else if 'a' ≤ c ∧ c ≤ 'f' then some (c.toNat - 'a'.toNat + 10)
  else if 'A' ≤ c ∧ c ≤ 'F' then some (c.toNat - 'A'.toNat + 10)
  else none

/-- The value of a four-hex-digit escape, if all four digits are valid. -/
def hex4 (a b c d : Char) : Option Nat :=
  match hexVal a, hexVal b, hexVal c, hexVal d with
  | some va, some vb, some vc, some vd => some (((va * 16 + vb) * 16 + vc) * 16 + vd)
  | _, _, _, _ => none

/-- Reads the body of a JSON string literal after the opening quote, decoding
the standard escapes including `\uXXXX` with surrogate-pair combination, and
rejecting raw control characters as Python's strict decoder does.  A lone
surrogate escape (which CPython tolerates, producing an unpaired surrogate no
Lean `Char` can hold) is the one input class treated as a decode failure. -/
def readJStr : List Char → List Char → Option (String × List Char)
  | [], _ => none
  | '"' :: rest, acc => some (String.mk acc.reverse, rest)
  | '\\' :: '"' :: rest, acc => readJStr rest ('"' :: acc)
  | '\\' :: '\\' :: rest, acc => readJStr rest ('\\' :: acc)
  | '\\' :: '/' :: rest, acc => readJStr rest ('/' :: acc)
  | '\\' :: 'b' :: rest, acc => readJStr rest ('\x08' :: acc)
  | '\\' :: 'f' :: rest, acc => readJStr rest ('\x0c' :: acc)
  | '\\' :: 'n' :: rest, acc => readJStr rest ('\n' :: acc)
  | '\\' :: 'r' :: rest, acc => readJStr rest ('\r' :: acc)
  | '\\' :: 't' :: rest, acc => readJStr rest ('\t' :: acc)
  | '\\' :: 'u' :: h1 :: h2 :: h3 :: h4 :: rest, acc =>
    (match hex4 h1 h2 h3 h4 with
     | none => none
     | some n =>
       if n < 0xD800 ∨ 0xE000 ≤ n then readJStr rest (Char.ofNat n :: acc)
       else if n < 0xDC00 then
         match rest with
         | '\\' :: 'u' :: g1 :: g2 :: g3 :: g4 :: rest2 =>
           (match hex4 g1 g2 g3 g4 with
            | some m =>
              if 0xDC00 ≤ m ∧ m < 0xE000 then
                readJStr rest2
                  (Char.ofNat (0x10000 + (n - 0xD800) * 0x400 + (m - 0xDC00)) :: acc)
              else none
            | none => none)
         | _ => none
       else none)
  | '\\' :: _, _ => none
  | c :: rest, acc => if c.toNat < 0x20 then none else readJStr rest (c :: acc)

/-- Parses the optional fractional part of a JSON number, returning the
consumed characters and the remaining input. -/
def parseJFrac (cs : List Char) : Option (List Char × List Char) :=
  match cs with
  | '.' :: rest =>
    let p := rest.span Char.isDigit
    if p.1 = [] then none else some ('.' :: p.1, p.2)
  | _ => some ([], cs)

/-- Parses the optional exponent part of a JSON number, returning the consumed
characters and the remaining input. -/
def parseJExp (cs : List Char) : Option (List Char × List Char) :=
  match cs with
  | c :: rest =>
    if c = 'e' ∨ c = 'E' then
      let signed : List Char × List Char :=
        match rest with
        | s :: r => if s = '+' ∨ s = '-' then ([s], r) else ([], rest)
        | [] => ([], rest)
      let p := signed.2.span Char.isDigit
      if p.1 = [] then none else some (c :: signed.1 ++ p.1, p.2)
    else some ([], cs)
  | [] => some ([], cs)

/-- Parses a JSON number per the grammar Python's decoder uses
(`-?(0|[1-9][0-9]*)(\.[0-9]+)?([eE][+-]?[0-9]+)?`), returning its lexeme. -/
def parseJNumber (cs : List Char) : Option (String × List Char) :=
  let signed : List Char × List Char :=
    match cs with
    | '-' :: rest => (['-'], rest)
    | _ => ([], cs)
  match signed.2 with
  | '0' :: rest =>
    (parseJFrac rest).bind (fun f =>
      (parseJExp f.2).map (fun e =>
        (String.mk (signed.1 ++ '0' :: (f.1 ++ e.1)), e.2)))
  | c :: rest =>
    if c.isDigit then
      let p := rest.span Char.isDigit
      (parseJFrac p.2).bind (fun f =>
        (parseJExp f.2).map (fun e =>
          (String.mk (signed.1 ++ c :: (p.1 ++ f.1 ++ e.1)), e.2)))
    else none
  | [] => none

/-- The three states of the JSON value parser: expecting a value, inside an
object's member list, or inside an array's element list (the accumulators hold
the members or elements already parsed). -/
inductive JParseMode where
  | value
  | members (acc : List (String × Jv))
  | elements (acc : List Jv)

/-- Recursive-descent parser for JSON values, modelling the grammar Python's
`json.loads` accepts (including its `NaN`/`Infinity`/`-Infinity` extensions).
The fuel argument only bounds the recursion depth; any two consecutive
recursive calls consume at least one input character, so the bound passed by
`loadsJson` can never be exhausted on its input. -/
def parseStep : Nat → JParseMode → List Char → Option (Jv × List Char)
  | 0, _, _ => none
  | fuel + 1, .value, cs =>
    match skipWs cs with
    | '"' :: rest => (readJStr rest []).map (fun p => (.str p.1, p.2))
    | '\x7b' :: rest =>
      (match skipWs rest with
       | '\x7d' :: rest2 => some (.obj [], rest2)
       | rest2 => parseStep fuel (.members []) rest2)
    | '[' :: rest =>
      (match skipWs rest with
       | ']' :: rest2 => some (.arr [], rest2)
       | rest2 => parseStep fuel (.elements []) rest2)
    | 't' :: 'r' :: 'u' :: 'e' :: rest => some (.bool true, rest)
    | 'f' :: 'a' :: 'l' :: 's' :: 'e' :: rest => some (.bool false, rest)
    | 'n' :: 'u' :: 'l' :: 'l' :: rest => some (.null, rest)
    | 'N' :: 'a' :: 'N' :: rest => some (.num "NaN", rest)
    | 'I' :: 'n' :: 'f' :: 'i' :: 'n' :: 'i' :: 't' :: 'y' :: rest =>
      some (.num "Infinity", rest)
    | '-' :: 'I' :: 'n' :: 'f' :: 'i' :: 'n' :: 'i' :: 't' :: 'y' :: rest =>
      some (.num "-Infinity", rest)
    | rest => (parseJNumber rest).map (fun p => (.num p.1, p.2))
  | fuel + 1, .members acc, cs =>
    (match skipWs cs with
     | '"' :: rest =>
       (match readJStr rest [] with
        | none => none
        | some (k, cs1) =>
          match skipWs cs1 with
          | ':' :: cs2 =>
            (match parseStep fuel .value cs2 with
             | none => none
             | some (v, cs3) =>
               match skipWs cs3 with
               | ',' :: cs4 => parseStep fuel (.members (acc ++ [(k, v)])) cs4
               | '\x7d' :: cs5 => some (.obj (acc ++ [(k, v)]), cs5)
               | _ => none)
          | _ => none)
     | _ => none)
  | fuel + 1, .elements acc, cs =>
    (match parseStep fuel .value cs with
     | none => none
     | some (v, cs1) =>
       match skipWs cs1 with
       | ',' :: cs2 => parseStep fuel (.elements (acc ++ [v])) cs2
       | ']' :: cs3 => some (.arr (acc ++ [v]), cs3)
       | _ => none)

/-- Model of the Python stdlib call `json.loads`: parses one JSON value and
requires the remaining input to be whitespace. -/
def loadsJson (s : String) : Option Jv :=
  match parseStep (2 * s.length + 4) .value s.data with
  | some (v, rest) => if skipWs rest = [] then some v else none
  | none => none

/-- Model of `json.loads(content_text)` followed by
`parsed_result.get("status")`: `none` means the call raised — a decode error,
or the `AttributeError` that `.get` raises on a non-dict document (the
source's `except` clause catches both alike); `some st` means a JSON object
parsed and `st` is its optional `status` value.  Duplicate keys behave as in a
Python dict: the last occurrence wins. -/
def loadsStatus (s : String) : Option (Option Jv) :=
  match loadsJson s with
  | some (.obj fields) =>
    some ((fields.reverse.find? (fun p => p.fst = "status")).map (fun p => p.snd))
  | _ => none

/-- The Python comparison `parsed_result.get("status") == "error"`: true only
when the status value exists and is exactly the string `"error"`. -/
def statusFlagsError : Option Jv → Bool
  | some (.str s) => s = "error"
  | _ => false

/-- The shapes of Python values stored under `result["result"]` in a tool
result, as distinguished by `_check_tool_results_for_errors`: an object with a
`.content` list of text items (a `CallToolResult`), a plain string, or any
other value.  Each shape carries the text of its `str()` rendering. -/
inductive ToolResultValue where
  | structuredContent (contentTexts : List String) (rendering : String)
  | strVal (s : String)
  | other (rendering : String)
deriving DecidableEq, Repr

/-- The Python `str()` rendering of a tool result value (used by the `except`
branch of `_check_tool_results_for_errors` and by `_compile_user_response`). -/
def render : ToolResultValue → String
  | .structuredContent _ rendering => rendering
  | .strVal s => s
  | .other rendering => rendering

/-- One entry of the list returned by the tool dispatcher, as consumed by the
loop (`{"tool_name": ..., "result": ...}`). -/
structure ToolResultRecord where
  tool_name : String
  result : ToolResultValue
deriving DecidableEq, Repr

/-- The per-item logic of `_check_tool_results_for_errors`: an object with
non-empty content has its first text JSON-decoded and is flagged iff the
`status` field equals `"error"`; a decode failure falls into the `except`
branch which scans the `str()` rendering for `"error"` case-insensitively；a
plain string is scanned directly; an object with empty content, or any other
value, is never flagged. -/
def resultFlagsError : ToolResultValue → Bool
  | .structuredContent contentTexts rendering =>
    match contentTexts with
    | [] => false
    | t :: _ =>
      match loadsStatus t with
      | some st => statusFlagsError st
      | none => containsSub (lowerStr rendering) "error"
  | .strVal s => containsSub (lowerStr s) "error"
  | .other _ => false

/-- Embeds `_check_tool_results_for_errors`: the early-`return True` loop over
the tool results is equivalent to flagging any single result. -/
def check_tool_results_for_errors (tool_results : List ToolResultRecord) : Bool :=
  tool_results.any (fun r => resultFlagsError r.result)

/-- Definition following the words of the claim (not the source): a result set
is claimed to be flagged iff some result parses as JSON with a `status` field
equal to `"error"`, or its string rendering contains `"error"`
case-insensitively. -/
def claimedErrorPredicate (tool_results : List ToolResultRecord) : Bool :=
  tool_results.any (fun r =>
    (match r.result with
     | .structuredContent (t :: _) _ =>
       (match loadsStatus t with
        | some st => statusFlagsError st
        | none => false)
     | _ => false)
    || containsSub (lowerStr (render r.result)) "error")
/-- A tool call as structured data (`{"name": ..., "input": ..., "id": ...}`),
the shape produced by `GPTClient._extract_tool_calls`; the structured `input`
argument dict is abstracted to its serialized text. -/
structure ToolCall where
  name : String
  input : String
  id : String
deriving DecidableEq, Repr

/-- The dict returned by `_call_gpt_client_with_tools`
(`{"content": ..., "tool_calls": ...}`). -/
structure GptResponse where
  content : String
  tool_calls : List ToolCall
deriving DecidableEq, Repr

/-- Model of `json.dumps` for one extracted tool call (string-valued fields,
no escapes needed for the inputs considered here). -/
def serializeToolCall (tc : ToolCall) : String :=
  "\x7b\"name\": \"" ++ tc.name ++ "\", \"input\": \"" ++ tc.input ++
    "\", \"id\": \"" ++ tc.id ++ "\"\x7d"

/-- Model of the `json.dumps({"tool_calls": ..., "content": ...})` payload
built by `GPTClient._parse_response` when the response carries tool calls. -/
def serializeToolCallPayload (tool_calls : List ToolCall) : String :=
  "\x7b\"tool_calls\": [" ++ String.intercalate ", " (tool_calls.map serializeToolCall) ++
    "], \"content\": \"I\x27ll help you with this task using the available tools.\"\x7d"

/-- Embeds `GPTClient._parse_response`: the extracted tool calls (first
argument) and the extracted output text (second argument) are both collapsed
into a single string — a response with tool calls returns a JSON dump of them,
otherwise the output text is returned.  The traversal of the raw response
object that yields these two components is network-collaborator structure and
is abstracted into the two arguments. -/
def parse_response (extracted_tool_calls : List ToolCall) (output_text : String) : String :=
  if extracted_tool_calls ≠ [] then serializeToolCallPayload extracted_tool_calls
  else output_text

/-- Embeds the `messages_text` accumulation of `_call_gpt_client_with_tools`:
each message is rendered as `role: content` followed by a newline. -/
def combinedInput (system_message : String) (messages : List Message) : String :=
  let messages_text := messages.foldl
    (fun acc m => acc ++ m.role ++ ": " ++ m.content ++ "\n") ""
  system_message ++ "\n\nConversation:\n" ++ messages_text

/-- Embeds the construction of the `input` argument sent to the responses API
(`GPTClient.call_with_mcp_tools` wraps the combined text in a single user
message, after `_call_gpt_client_with_tools` validates the conversation and
substitutes a fallback user message when validation leaves it empty). -/
def modelInputMessages (system_message : String) (messages : List Message) : List Message :=
  let validated := validate_messages messages
  let validated :=
    if validated = [] then
      [{ role := "user", content := "Please continue implementing code" }]
    else validated
  [{ role := "user", content := combinedInput system_message validated }]

/-- Embeds the return value of `_call_gpt_client_with_tools`: whatever string
the client produced becomes the `content`, and the `tool_calls` field is the
literal empty list (`"tool_calls": []` in the source).  The `client_output`
argument stands for the string returned by the awaited
`client.call_with_mcp_tools(...)` network call. -/
def call_gpt_client_with_tools (system_message : String) (messages : List Message)
    (client_output : String) : GptResponse :=
  { content := client_output, tool_calls := [] }

/-- One `TextContent` item as returned by the command-executor MCP server
(`types.TextContent(type="text", text=...)`). -/
structure TextContent where
  type : String
  text : String
deriving DecidableEq, Repr

/-- The possible outcomes of one `subprocess.run` invocation, as an external
collaborator: normal completion with a return code and captured streams, a
`subprocess.TimeoutExpired`, or any other raised exception (carrying its
message).  A directory-creation failure before the run is also an exception
and is covered by the `exn` case. -/
inductive CommandOutcome where
  | completed (returncode : Int) (stdout stderr : String)
  | timeout
  | exn (msg : String)
deriving DecidableEq, Repr

/-- The argument dict passed to `handle_call_tool`; absent keys are `none`
(the source reads them with `arguments.get(key, default)`). -/
structure ToolCallArguments where
  commands : Option String
  command : Option String
  working_directory : Option String
deriving DecidableEq, Repr

/-- Embeds `format_single_command_result` from `command_executor.py`. -/
def format_single_command_result (command working_directory : String)
    (returncode : Int) (stdout stderr : String) : String :=
  let header := "\nSingle Command Execution:\n" ++ String.mk (List.replicate 40 '=') ++
    "\nWorking Directory: " ++ working_directory ++ "\nCommand: " ++ command ++
    "\nReturn Code: " ++ toString returncode ++ "\n\n"
  if returncode = 0 then
    header ++ checkMark ++ " Status: SUCCESS\n" ++
      (if strip stdout ≠ "" then "Output:\n" ++ strip stdout ++ "\n" else "")
  else
    header ++ crossMark ++ " Status: FAILED\n" ++
      (if strip stderr ≠ "" then "Error:\n" ++ strip stderr ++ "\n" else "")

/-- Embeds `execute_single_command`: the `try` body formats a completed run,
`subprocess.TimeoutExpired` and any other exception are caught and converted
into a single error text item — the function never raises. -/
def execute_single_command (command working_directory : String)
    (outcome : CommandOutcome) : List TextContent :=
  match outcome with
  | .completed returncode stdout stderr =>
    [{ type := "text",
       text := format_single_command_result command working_directory returncode stdout stderr }]
  | .timeout =>
    [{ type := "text", text := timerMark ++ " Command timeout: " ++ command }]
  | .exn msg =>
    [{ type := "text", text := boomMark ++ " Command execution error: " ++ msg }]

/-- Splits a character list at newline characters (helper for the model of
Python `str.split`). -/
def splitNlAux : List Char → List Char → List String
  | [], acc => [String.mk acc.reverse]
  | c :: rest, acc =>
    if c = '\n' then String.mk acc.reverse :: splitNlAux rest []
    else splitNlAux rest (c :: acc)

/-- Model of the Python expression `s.split("\n")` (an empty string yields
`[""]`, exactly as in Python). -/
def splitNl (s : String) : List String :=
  splitNlAux s.data []

/-- Embeds the command-line splitting of `execute_command_batch`
(`[cmd.strip() for cmd in commands.strip().split("\n") if cmd.strip()]`). -/
def splitCommandLines (commands : String) : List String :=
  (((splitNl (strip commands)).map strip).filter (fun c => c ≠ ""))

/-- Embeds `generate_execution_summary` from `command_executor.py`; the three
counters are successful, failed and timed-out commands. -/
def generate_execution_summary (working_directory : String) (total : Nat)
    (successful failed timedOut : Nat) : String :=
  "\nCommand Execution Summary:\n" ++ String.mk (List.replicate 50 '=') ++
    "\nWorking Directory: " ++ working_directory ++
    "\nTotal Commands: " ++ toString total ++
    "\nSuccessful: " ++ toString successful ++
    "\nFailed: " ++ toString failed ++
    "\nTimeout: " ++ toString timedOut ++
    "\n\nDetailed Results:\n" ++ String.mk (List.replicate 50 '-')

/-- The result lines and counter increments contributed by command number `i`
of a batch (the body of the `for` loop of `execute_command_batch`; the three
increments are successful, failed, timeout). -/
def batchStepLines (i : Nat) (command : String) :
    CommandOutcome → List String × Nat × Nat × Nat
  | .completed returncode stdout stderr =>
    if returncode = 0 then
      ([checkMark ++ " Command " ++ toString i ++ ": " ++ command] ++
        (if strip stdout ≠ "" then ["   Output: " ++ strip stdout] else []), 1, 0, 0)
    else
      ([crossMark ++ " Command " ++ toString i ++ ": " ++ command] ++
        (if strip stderr ≠ "" then ["   Error: " ++ strip stderr] else []), 0, 1, 0)
  | .timeout =>
    ([timerMark ++ " Command " ++ toString i ++ " timeout: " ++ command], 0, 0, 1)
  | .exn msg =>
    ([boomMark ++ " Command " ++ toString i ++ " exception: " ++ command ++ " - " ++ msg],
      0, 1, 0)

/-- Folds the batch loop over the enumerated command list (commands are
numbered from 1 as in `enumerate(command_lines, 1)`). -/
def batchFold (outcomes : Nat → CommandOutcome) :
    List String → Nat → List String × Nat × Nat × Nat
  | [], _ => ([], 0, 0, 0)
  | command :: rest, i =>
    let step := batchStepLines i command (outcomes i)
    let tail := batchFold outcomes rest (i + 1)
    (step.1 ++ tail.1, step.2.1 + tail.2.1, step.2.2.1 + tail.2.2.1,
      step.2.2.2 + tail.2.2.2)

/-- Embeds `execute_command_batch`: `setup` is `some e` when the working
directory creation (or anything else ahead of the command loop) raised — the
outer `except` converts it to an error text; otherwise the commands are split,
an empty list is reported as such, and each command's outcome is folded into
the report.  The function never raises. -/
def execute_command_batch (commands working_directory : String)
    (setup : Option String) (outcomes : Nat → CommandOutcome) : List TextContent :=
  match setup with
  | some e => [{ type := "text", text := "Failed to execute command batch: " ++ e }]
  | none =>
    let command_lines := splitCommandLines commands
    if command_lines = [] then
      [{ type := "text", text := "No valid commands provided" }]
    else
      let folded := batchFold outcomes command_lines 1
      let summary := generate_execution_summary working_directory command_lines.length
        folded.2.1 folded.2.2.1 folded.2.2.2
      [{ type := "text", text := summary ++ "\n" ++ String.intercalate "\n" folded.1 }]

/-- The body of `handle_call_tool` before its `except` clause: dispatch on the
tool name, raising `ValueError(f"Unknown tool: {name}")` — modelled as
`Except.error` — for unknown names.  The two handlers are total because their
sources catch their own exceptions. -/
def handleCallToolBody (name : String) (arguments : ToolCallArguments)
    (setup : Option String) (outcomes : Nat → CommandOutcome) :
    Except String (List TextContent) :=
  if name = "execute_commands" then
    .ok (execute_command_batch (arguments.commands.getD "")
      (arguments.working_directory.getD ".") setup outcomes)
  else if name = "execute_single_command" then
    .ok (execute_single_command (arguments.command.getD "")
      (arguments.working_directory.getD ".") (outcomes 1))
  else
    .error ("Unknown tool: " ++ name)

/-- Embeds `handle_call_tool`: any exception escaping the dispatch body is
caught and rendered as an error text item mentioning the tool name — the
dispatcher itself never raises. -/
def handle_call_tool (name : String) (arguments : ToolCallArguments)
    (setup : Option String) (outcomes : Nat → CommandOutcome) : List TextContent :=
  match handleCallToolBody name arguments setup outcomes with
  | .ok r => r
  | .error e => [{ type := "text", text := "Error executing tool " ++ name ++ ": " ++ e }]
/-- Modelled from the spec: the `MemoryState` owned by the `ConciseMemoryAgent`
(the class itself is not in the available source tree) —
`{essential_results_since_compaction, last_write_detected, round_counter}`,
together with the initial task text the agent is constructed with and the
append-only file-implementation ledger that survives compaction. -/
structure MemoryState where
  initialTask : String
  essentialResults : List (String × String)
  lastWriteDetected : Bool
  roundCounter : Nat
  implementedFiles : List String
deriving DecidableEq, Repr

/-- Modelled from the spec: the fresh memory state built by
`ConciseMemoryAgent(plan_content, ...)` followed by
`start_new_round(iteration=0)`. -/
def initMemoryState (plan_content : String) : MemoryState :=
  { initialTask := plan_content, essentialResults := [], lastWriteDetected := false,
    roundCounter := 0, implementedFiles := [] }

/-- Modelled from the spec: the tool kinds whose results are "essential"
(read/reference/inspection kinds, retained verbatim across compaction). -/
def essentialToolNames : List String :=
  ["read_file", "read_code_mem", "search_code_references"]

/-- Modelled from the spec: `ConciseMemoryAgent.record_tool_result` — results
of essential (read/reference) tools are appended to
`essential_results_since_compaction`, and a `write_file` call sets
`last_write_detected`. -/
def record_tool_result (st : MemoryState) (tool_name _tool_input rendered_result : String) :
    MemoryState :=
  let st1 :=
    if tool_name ∈ essentialToolNames then
      { st with essentialResults := st.essentialResults ++ [(tool_name, rendered_result)] }
    else st
  if tool_name = "write_file" then { st1 with lastWriteDetected := true } else st1

/-- Modelled from the spec: `ConciseMemoryAgent.record_file_implementation` —
the append-only `FileImplementationRecord` ledger (one entry per path). -/
def record_file_implementation (st : MemoryState) (path : String) : MemoryState :=
  if path ∈ st.implementedFiles then st
  else { st with implementedFiles := st.implementedFiles ++ [path] }

/-- Modelled from the spec: `ConciseMemoryAgent.start_new_round(iteration)`. -/
def start_new_round (st : MemoryState) (iteration : Nat) : MemoryState :=
  { st with roundCounter := iteration }

/-- Modelled from the spec: the hard ceiling on the conversation length used by
the compaction trigger (the source loop uses the same constant for its
emergency trim). -/
def messageCeiling : Nat := 500

/-- Modelled from the spec:
`ConciseMemoryAgent.should_trigger_memory_optimization(messages, files)` —
true iff the current round dispatched a successful write, or the conversation
exceeds the hard message ceiling. -/
def should_trigger_memory_optimization (messages : List Message) (st : MemoryState) : Bool :=
  st.lastWriteDetected || messages.length > messageCeiling

/-- Modelled from the spec: the single synthesized message holding every
essential tool result recorded since the previous compaction, concatenated
verbatim. -/
def synthesizedEssentialMessage (essentialResults : List (String × String)) : String :=
  "Essential tool results since last compaction:\n" ++
    String.intercalate "\n" (essentialResults.map (fun p => p.fst ++ ": " ++ p.snd))

/-- Modelled from the spec:
`ConciseMemoryAgent.apply_memory_optimization(system_message, messages, files)`
— the conversation is wholesale-replaced by
`[current system message, initial task message, synthesized essential message]`,
`essential_results_since_compaction` is cleared and `last_write_detected`
reset. -/
def apply_memory_optimization (system_message : String) (_messages : List Message)
    (_files_count : Nat) (st : MemoryState) : List Message × MemoryState :=
  ([{ role := "system", content := system_message },
    { role := "user", content := st.initialTask },
    { role := "user", content := synthesizedEssentialMessage st.essentialResults }],
   { st with essentialResults := [], lastWriteDetected := false })

/-- The compaction step as the loop invokes it (lines 464–474 of the loop
body): `apply_memory_optimization` guarded by
`should_trigger_memory_optimization`, otherwise the state is untouched. -/
def maybeOptimize (system_message : String) (files_count : Nat) :
    List Message × MemoryState → List Message × MemoryState
  | (messages, st) =>
    if should_trigger_memory_optimization messages st then
      apply_memory_optimization system_message messages files_count st
    else (messages, st)

/-- The inputs one loop round obtains from its external collaborators: the
model call result (`Except.error` embeds a raised exception in
`_call_llm_with_tools`), the tool results returned by
`code_agent.execute_tool_calls`, the wall-clock time the round consumes, and
the values read from the `CodeImplementationAgent` (analysis-loop flag,
files-implemented count, completed-file list), which is not in the available
source tree and is therefore treated as an oracle. -/
structure RoundInput where
  modelResult : Except String GptResponse
  toolResults : List ToolResultRecord
  duration : Nat
  analysisLoop : Bool
  filesCount : Nat
  completedFiles : List String

/-- The run configuration of `_pure_code_implementation_loop`
(`max_iterations = 500`, `max_time = 5000` in the source; kept as parameters
so the theorems cover the literals). -/
structure LoopConfig where
  maxIterations : Nat
  maxTime : Nat
  systemMessage : String

/-- The literal iteration bound of the source loop. -/
def sourceMaxIterations : Nat := 500

/-- The literal wall-time budget of the source loop (seconds). -/
def sourceMaxTime : Nat := 5000

/-- Modelled from the spec: the corrective guidance appended when the
`CodeImplementationAgent` (not in the available source tree) reports an
analysis loop — text demanding a write-kind call in the very next round. -/
def analysisLoopGuidance : String :=
  "Analysis loop detected: you must call write_file in the very next round."

/-- Embeds `_compile_user_response`: the tool results are rendered inside
fenced blocks under a header, the guidance is appended after a blank line, and
the parts are joined by double newlines. -/
def compile_user_response (tool_results : List ToolResultRecord) (guidance : String) : String :=
  let response_parts : List String :=
    (if tool_results ≠ [] then
      [toolResultsHeader] ++ tool_results.map (fun tr =>
        "```\nTool: " ++ tr.tool_name ++ "\nResult: " ++ render tr.result ++ "\n```")
    else []) ++
    (if guidance ≠ "" then ["\n" ++ guidance] else [])
  String.intercalate "\n\n" response_parts

/-- One round of `_pure_code_implementation_loop` between the model call and
the completion check: validate the conversation, append the assistant message,
dispatch on the presence of tool calls (record results, classify the outcome,
choose guidance, compile the user response, and run the triggered compaction)
or append the no-tool-call guidance, then append analysis-loop guidance if
flagged and record the completed files. -/
def roundBody (cfg : LoopConfig) (inp : RoundInput) (resp : GptResponse)
    (messages : List Message) (mem : MemoryState) : List Message × MemoryState :=
  let validated := validate_messages messages
  let content := effectiveContent resp.content
  let withAssistant := validated ++ [{ role := "assistant", content := content }]
  let afterTools :=
    if resp.tool_calls ≠ [] then
      let mem1 := (resp.tool_calls.zip inp.toolResults).foldl
        (fun st p => record_tool_result st p.fst.name p.fst.input (render p.snd.result)) mem
      let has_error := check_tool_results_for_errors inp.toolResults
      let guidance :=
        if has_error then generate_error_guidance
        else generate_success_guidance inp.filesCount
      let compiled := compile_user_response inp.toolResults guidance
      maybeOptimize cfg.systemMessage inp.filesCount
        (withAssistant ++ [{ role := "user", content := compiled }], mem1)
    else
      (withAssistant ++ [{ role := "user", content := generate_no_tools_guidance inp.filesCount }],
        mem)
  let afterAnalysis :=
    if inp.analysisLoop then
      (afterTools.1 ++ [{ role := "user", content := analysisLoopGuidance }], afterTools.2)
    else afterTools
  (afterAnalysis.1, inp.completedFiles.foldl record_file_implementation afterAnalysis.2)

/-- How a run of the loop terminated: the wall-time break, the completion
break, or exhaustion of `max_iterations` (the `while` condition). -/
inductive TermReason where
  | timeLimit
  | complete
  | maxIterations
deriving DecidableEq, Repr

/-- The observable outcome of `_pure_code_implementation_loop`: either a raised
model-call exception propagating out of the loop, or the data the final report
is generated from (iteration counter, elapsed time, termination reason) along
with the final conversation and memory state. -/
inductive LoopResult where
  | fatal (msg : String)
  | report (iterations : Nat) (elapsed : Nat) (reason : TermReason)
      (messages : List Message) (mem : MemoryState)
deriving DecidableEq, Repr

/-- Embeds the emergency trim at the end of the loop body
(`if len(messages) > 500: messages = memory_agent.apply_memory_optimization(...)`). -/
def emergencyTrim (cfg : LoopConfig) (files_count : Nat) (messages : List Message)
    (mem : MemoryState) : List Message × MemoryState :=
  if messages.length > 500 then
    apply_memory_optimization cfg.systemMessage messages files_count mem
  else (messages, mem)

/-- Embeds the `while iteration < max_iterations` loop of
`_pure_code_implementation_loop` as a fuel recursion (`fuel` is the number of
remaining iterations, so the wrapper below passes `cfg.maxIterations`).  Each
round increments the counter, checks the elapsed wall time, calls the model
(an exception aborts the whole run), runs `roundBody`, starts the next memory
round, breaks on a completion phrase, and otherwise applies the emergency trim
and continues. -/
def loopGo (cfg : LoopConfig) (oracle : Nat → RoundInput) :
    Nat → Nat → Nat → List Message → MemoryState → LoopResult
  | 0, iteration, elapsed, messages, mem =>
    .report iteration elapsed .maxIterations messages mem
  | fuel + 1, iteration, elapsed, messages, mem =>
    let i := iteration + 1
    if elapsed > cfg.maxTime then
      .report i elapsed .timeLimit messages mem
    else
      match (oracle i).modelResult with
      | .error e => .fatal e
      | .ok resp =>
        let stepped := roundBody cfg (oracle i) resp messages mem
        let mem2 := start_new_round stepped.2 i
        let elapsed2 := elapsed + (oracle i).duration
        if declaresComplete (effectiveContent resp.content) then
          .report i elapsed2 .complete stepped.1 mem2
        else
          let trimmed := emergencyTrim cfg (oracle i).filesCount stepped.1 mem2
          loopGo cfg oracle fuel i elapsed2 trimmed.1 trimmed.2

/-- Embeds `_pure_code_implementation_loop` started the way
`implement_code_pure` starts it: iteration 0, zero elapsed time, the provided
initial conversation, and a fresh memory agent built from the plan content. -/
def pure_code_implementation_loop (cfg : LoopConfig) (oracle : Nat → RoundInput)
    (messages : List Message) (mem : MemoryState) : LoopResult :=
  loopGo cfg oracle cfg.maxIterations 0 0 messages mem

/-- Embeds the initial task message of `implement_code_pure`
(`implementation_message`, an f-string over the plan content and the code
directory). -/
def implementationMessage (plan_content code_directory : String) : String :=
  implementationMessagePre ++ plan_content ++ implementationMessageMid ++
    code_directory ++ implementationMessageSuf

/-- Embeds the conversation constructed by `implement_code_pure` before the
loop starts: exactly one user message holding the implementation task. -/
def initialMessages (plan_content code_directory : String) : List Message :=
  [{ role := "user", content := implementationMessage plan_content code_directory }]

/-- The value `run_workflow` hands back to its caller: the success dict, or the
`{"status": "error", "message": str(e)}` dict its `except` clause builds from
a propagated exception. -/
inductive WorkflowResult where
  | success (iterations : Nat) (elapsed : Nat) (reason : TermReason)
  | error (message : String)
deriving DecidableEq, Repr

/-- Embeds the error path of `run_workflow` around the implementation loop: a
loop that terminates normally produces a success report built from its
counters, and the only exception the loop itself propagates — a model-call
failure re-raised by `_call_llm_with_tools` — is caught by `run_workflow` and
returned as an error result carrying the exception message. -/
def run_workflow_model (cfg : LoopConfig) (oracle : Nat → RoundInput)
    (plan_content code_directory : String) : WorkflowResult :=
  match pure_code_implementation_loop cfg oracle
      (initialMessages plan_content code_directory) (initMemoryState plan_content) with
  | .fatal msg => .error msg
  | .report iterations elapsed reason _ _ => .success iterations elapsed reason
/-- The tool-result list used to refute claim C10's "if and only if": its only
entry is a structured result whose content parses as JSON with status `"ok"`,
while its `str()` rendering mentions the word "error". -/
def c10IffInput : List ToolResultRecord :=
  [{ tool_name := "write_file",
     result := .structuredContent ["\x7b\"status\": \"ok\", \"note\": \"no error found\"\x7d"]
       "CallToolResult(status=ok, note=no error found)" }]

/-- A tool-result list whose only entry reports a structured status of ok in
its text while mentioning the word "error": the classifier flags it. -/
def c10OkStatusInput : List ToolResultRecord :=
  [{ tool_name := "execute_python",
     result := .strVal "\x7b\"status\": \"ok\", \"log\": \"fixed the error\"\x7d" }]

/-- C10, counterexample: the claimed characterization of
`_check_tool_results_for_errors` fails — a result whose content parses as JSON
with a non-error status is never substring-checked, so a rendering containing
"error" is not flagged even though the claimed predicate holds. -/
theorem check_tool_results_claim_counterexample_c10 :
    check_tool_results_for_errors c10IffInput = false ∧
    claimedErrorPredicate c10IffInput = true := by
  decide

/-- C10, amended: `_check_tool_results_for_errors` returns true iff some single
result is flagged, where a structured result whose first content text parses
as a JSON object is flagged exactly when its (last-occurrence) `status` value
is the string `"error"` — its rendering is never substring-checked on a
successful parse — while a parse failure (or a non-object document, whose
`.get` raises the same caught `AttributeError`) and a plain string fall back
to the case-insensitive "error" substring scan, and a non-string result
without content is never flagged.  The two concrete conjuncts pin the
behaviour on objects with non-string values and with duplicate keys; the last
conjunct shows a result list whose only structured status is ok but whose text
mentions "error" is flagged. -/
theorem check_tool_results_amended_c10 :
    (∀ tool_results, check_tool_results_for_errors tool_results = true ↔
      ∃ r ∈ tool_results, resultFlagsError r.result = true) ∧
    (∀ rendering, resultFlagsError (.other rendering) = false) ∧
    (∀ t rest rendering st, loadsStatus t = some st → statusFlagsError st = false →
      resultFlagsError (.structuredContent (t :: rest) rendering) = false) ∧
    resultFlagsError (.structuredContent
      ["\x7b\"status\": \"ok\", \"count\": 3\x7d"] "error in rendering") = false ∧
    resultFlagsError (.structuredContent
      ["\x7b\"status\": \"ok\", \"status\": \"error\"\x7d"] "all good") = true ∧
    check_tool_results_for_errors c10OkStatusInput = true := by
  refine ⟨?_, ?_, ?_, by decide, by decide, by decide⟩
  · intro tool_results
    simp [check_tool_results_for_errors, List.any_eq_true]
  · intro rendering
    rfl
  · intro t rest rendering st h hne
    simp [resultFlagsError, h, hne]

/-- C10, amended, witness: the non-error-status conjunct applied at a concrete
JSON document whose rendering mentions "error". -/
theorem check_tool_results_amended_c10_witness :
    resultFlagsError (.structuredContent ["\x7b\"status\": \"ok\"\x7d"]
      "error-looking rendering") = false :=
  check_tool_results_amended_c10.2.2.1 "\x7b\"status\": \"ok\"\x7d" []
    "error-looking rendering" (some (.str "ok")) rfl rfl

/-- Compaction clears `last_write_detected` and leaves exactly three messages,
so the compaction trigger is false on its own output. -/
lemma trigger_false_after_optimize (system_message : String) (messages : List Message)
    (files_count : Nat) (st : MemoryState) :
    should_trigger_memory_optimization
      (apply_memory_optimization system_message messages files_count st).1
      (apply_memory_optimization system_message messages files_count st).2 = false := by
  simp [should_trigger_memory_optimization, apply_memory_optimization, messageCeiling]

/-- C8: the compaction step as invoked by the loop (the triggered
`apply_memory_optimization`) is idempotent — applying it twice consecutively,
with no tool results recorded in between, equals applying it once, because
compaction resets `last_write_detected` and leaves a three-message
conversation, so the trigger cannot fire again. -/
theorem compaction_idempotent_c8 (system_message : String) (files_count : Nat)
    (messages : List Message) (st : MemoryState) :
    maybeOptimize system_message files_count
      (maybeOptimize system_message files_count (messages, st)) =
    maybeOptimize system_message files_count (messages, st) := by
  cases h : should_trigger_memory_optimization messages st with
  | false => simp [maybeOptimize, h]
  | true =>
    have h2 := trigger_false_after_optimize system_message messages files_count st
    simp [maybeOptimize, h, h2]

/-- C9: each guidance generator is a pure function of the outcome kind and the
files-implemented count alone — its output is either a single fixed template
or a fixed template with the count interpolated at one position. -/
theorem guidance_templates_c9 (outcome : RoundOutcomeKind) :
    (∃ t, ∀ files_count, guidanceFor outcome files_count = t) ∨
    (∃ pre suf, ∀ files_count,
      guidanceFor outcome files_count = pre ++ toString files_count ++ suf) := by
  cases outcome with
  | success => exact .inr ⟨successGuidancePre, successGuidanceSuf, fun _ => rfl⟩
  | error => exact .inl ⟨errorGuidanceText, fun _ => rfl⟩
  | noToolCall => exact .inr ⟨noToolsGuidancePre, noToolsGuidanceSuf, fun _ => rfl⟩

/-- Every branch of `execute_command_batch` returns exactly one text item. -/
lemma execute_command_batch_length (commands working_directory : String)
    (setup : Option String) (outcomes : Nat → CommandOutcome) :
    (execute_command_batch commands working_directory setup outcomes).length = 1 := by
  cases setup with
  | some e => rfl
  | none =>
    simp only [execute_command_batch]
    split <;> simp

/-- Every branch of `execute_single_command` returns exactly one text item. -/
lemma execute_single_command_length (command working_directory : String)
    (outcome : CommandOutcome) :
    (execute_single_command command working_directory outcome).length = 1 := by
  cases outcome <;> rfl

/-- C6: the tool-call dispatcher never raises — for every tool name, argument
dict and collaborator behaviour it returns exactly one text item; an exception
escaping the dispatch body (such as the unknown-tool `ValueError`) is
converted in place into an error text naming the tool, and a subprocess
timeout is converted by the single-command handler into a timeout text. -/
theorem dispatcher_never_raises_c6 (name : String) (arguments : ToolCallArguments)
    (setup : Option String) (outcomes : Nat → CommandOutcome) :
    (handle_call_tool name arguments setup outcomes).length = 1 ∧
    (∀ e, handleCallToolBody name arguments setup outcomes = .error e →
      handle_call_tool name arguments setup outcomes =
        [{ type := "text", text := "Error executing tool " ++ name ++ ": " ++ e }]) ∧
    (name ≠ "execute_commands" → name ≠ "execute_single_command" →
      handle_call_tool name arguments setup outcomes =
        [{ type := "text",
           text := "Error executing tool " ++ name ++ ": " ++ ("Unknown tool: " ++ name) }]) ∧
    (∀ command wd, execute_single_command command wd .timeout =
      [{ type := "text", text := timerMark ++ " Command timeout: " ++ command }]) := by
  refine ⟨?_, ?_, ?_, fun command wd => rfl⟩
  · unfold handle_call_tool handleCallToolBody
    split_ifs <;>
      simp [execute_command_batch_length, execute_single_command_length]
  · intro e he
    simp [handle_call_tool, he]
  · intro h1 h2
    simp [handle_call_tool, handleCallToolBody, h1, h2]

/-- C6, witness: the dispatcher converts an unknown tool name into an error
text, and a timed-out single command into a timeout text. -/
theorem dispatcher_never_raises_c6_witness :
    handle_call_tool "bogus_tool" ⟨none, none, none⟩ none (fun _ => .timeout) =
      [{ type := "text",
         text := "Error executing tool " ++ "bogus_tool" ++ ": " ++
           ("Unknown tool: " ++ "bogus_tool") }] ∧
    execute_single_command "sleep 99" "." .timeout =
      [{ type := "text", text := timerMark ++ " Command timeout: " ++ "sleep 99" }] :=
  ⟨(dispatcher_never_raises_c6 "bogus_tool" ⟨none, none, none⟩ none
      (fun _ => .timeout)).2.2.1 (by decide) (by decide),
   (dispatcher_never_raises_c6 "x" ⟨none, none, none⟩ none
      (fun _ => .timeout)).2.2.2 "sleep 99" "."⟩
/-- C7, counterexample: the conversation does not begin with a system-role
message — at run start it consists of the single user-role initial task
message, and the message sequence actually given to the model is likewise a
single user-role message (the system prompt is prepended as plain text inside
its content), so the claimed shape `[system, initial task, ...]` is violated
at the very first model call. -/
theorem conversation_head_not_system_c7 :
    (initialMessages "demo plan" "/workspace/generate_code").map Message.role = ["user"] ∧
    (modelInputMessages "SYSTEM PROMPT"
      (initialMessages "demo plan" "/workspace/generate_code")).map Message.role = ["user"] ∧
    "user" ≠ "system" := by
  refine ⟨rfl, ?_, by decide⟩
  decide

/-- C7, amended: the conversation begins with the fixed initial task message
carrying role `user` and contains no system-role message — the system prompt
is passed separately and prepended as text to the single user message sent to
the model; the validation pass keeps the (non-empty) initial task message in
first position, and the spec-modelled compaction re-emits the initial task
message immediately after the system message it introduces. -/
theorem conversation_start_amended_c7 (plan_content code_directory system_message : String)
    (h : strip (implementationMessage plan_content code_directory) ≠ "") :
    (initialMessages plan_content code_directory).map Message.role = ["user"] ∧
    validate_messages (initialMessages plan_content code_directory) =
      [{ role := "user", content := strip (implementationMessage plan_content code_directory) }] ∧
    (modelInputMessages system_message
      (initialMessages plan_content code_directory)).map Message.role = ["user"] ∧
    (∀ messages files_count st,
      ((apply_memory_optimization system_message messages files_count st).1).get? 1 =
        some { role := "user", content := st.initialTask }) := by
  refine ⟨rfl, ?_, ?_, fun messages files_count st => rfl⟩
  · simp [validate_messages, initialMessages, h]
  · simp [modelInputMessages, validate_messages, initialMessages, h]

/-- C7, amended, witness: the amended statement at a concrete plan and
directory. -/
theorem conversation_start_amended_c7_witness :
    (initialMessages "demo plan" "/ws").map Message.role = ["user"] ∧
    validate_messages (initialMessages "demo plan" "/ws") =
      [{ role := "user", content := strip (implementationMessage "demo plan" "/ws") }] ∧
    (modelInputMessages "SYS" (initialMessages "demo plan" "/ws")).map Message.role =
      ["user"] := by
  obtain ⟨h1, h2, h3, _⟩ :=
    conversation_start_amended_c7 "demo plan" "/ws" "SYS" (by decide)
  exact ⟨h1, h2, h3⟩

/-- C1: in the implemented GPT-client path the model-call wrapper always
returns an empty structural `tool_calls` list (tool calls the client extracts
are serialized into the content string by `_parse_response`), so the round
body invariably takes the no-tool-call branch: it appends the no-tool-call
guidance and never reaches tool dispatch, tool-result recording, guidance
selection or the write-triggered compaction. -/
theorem gpt_client_path_no_tool_branch_c1 (system_message client_output : String)
    (api_messages : List Message) (cfg : LoopConfig) (inp : RoundInput)
    (messages : List Message) (mem : MemoryState) :
    (call_gpt_client_with_tools system_message api_messages client_output).tool_calls = [] ∧
    roundBody cfg inp (call_gpt_client_with_tools system_message api_messages client_output)
        messages mem =
      (let base := validate_messages messages ++
        [{ role := "assistant", content := effectiveContent client_output },
         { role := "user", content := generate_no_tools_guidance inp.filesCount }]
       let withAnalysis :=
        if inp.analysisLoop then
          base ++ [{ role := "user", content := analysisLoopGuidance }]
        else base
       (withAnalysis, inp.completedFiles.foldl record_file_implementation mem)) ∧
    (∀ extracted_tool_calls output_text, extracted_tool_calls ≠ [] →
      parse_response extracted_tool_calls output_text =
        serializeToolCallPayload extracted_tool_calls) := by
  refine ⟨rfl, ?_, ?_⟩
  · cases ha : inp.analysisLoop <;>
      simp [roundBody, call_gpt_client_with_tools, ha]
  · intro extracted_tool_calls output_text hne
    simp [parse_response, hne]

/-- C1, witness: the GPT-client wrapper's response at a concrete input has no
structural tool calls, and a concrete extracted tool call is serialized into
the content string. -/
theorem gpt_client_path_no_tool_branch_c1_witness :
    (call_gpt_client_with_tools "SYS" [] "hello").tool_calls = [] ∧
    parse_response [{ name := "write_file", input := "x", id := "t1" }] "ignored" =
      serializeToolCallPayload [{ name := "write_file", input := "x", id := "t1" }] :=
  ⟨(gpt_client_path_no_tool_branch_c1 "SYS" "hello" [] ⟨500, 5000, "SYS"⟩
      ⟨.ok ⟨"hello", []⟩, [], 0, false, 0, []⟩ [] (initMemoryState "plan")).1,
   (gpt_client_path_no_tool_branch_c1 "SYS" "hello" [] ⟨500, 5000, "SYS"⟩
      ⟨.ok ⟨"hello", []⟩, [], 0, false, 0, []⟩ [] (initMemoryState "plan")).2.2
      [{ name := "write_file", input := "x", id := "t1" }] "ignored" (by simp)⟩
/-- Any report produced by `loopGo` carries an iteration counter bounded by the
starting counter plus the remaining fuel. -/
lemma loopGo_report_iterations_le (cfg : LoopConfig) (oracle : Nat → RoundInput) :
    ∀ fuel iteration elapsed messages mem {it el r m mm},
      loopGo cfg oracle fuel iteration elapsed messages mem = .report it el r m mm →
      it ≤ iteration + fuel := by
  intro fuel
  induction fuel with
  | zero =>
    intro iteration elapsed messages mem it el r m mm h
    simp only [loopGo, LoopResult.report.injEq] at h
    omega
  | succ fuel ih =>
    intro iteration elapsed messages mem it el r m mm h
    simp only [loopGo] at h
    split at h
    · simp only [LoopResult.report.injEq] at h
      omega
    · split at h
      · exact absurd h (by simp)
      · split at h
        · simp only [LoopResult.report.injEq] at h
          omega
        · have := ih _ _ _ _ h
          omega

/-- Any report produced by `loopGo` with reason `complete` reports a strictly
larger iteration counter than the one it started from (the completion break
happens after the increment). -/
lemma loopGo_complete_iterations_lt (cfg : LoopConfig) (oracle : Nat → RoundInput) :
    ∀ fuel iteration elapsed messages mem {it el m mm},
      loopGo cfg oracle fuel iteration elapsed messages mem =
        .report it el .complete m mm →
      iteration < it := by
  intro fuel
  induction fuel with
  | zero =>
    intro iteration elapsed messages mem it el m mm h
    exact absurd h (by simp [loopGo])
  | succ fuel ih =>
    intro iteration elapsed messages mem it el m mm h
    simp only [loopGo] at h
    split at h
    · exact absurd h (by simp)
    · split at h
      · exact absurd h (by simp)
      · split at h
        · simp only [LoopResult.report.injEq] at h
          omega
        · have := ih _ _ _ _ h
          omega

/-- The largest single-round wall-clock duration among the next `fuel` rounds
(the rounds `loopGo` can still execute from a given iteration counter). -/
def maxRoundDuration (oracle : Nat → RoundInput) : Nat → Nat → Nat
  | _, 0 => 0
  | iteration, fuel + 1 =>
    max (oracle (iteration + 1)).duration (maxRoundDuration oracle (iteration + 1) fuel)

/-- Elapsed-time bound for `loopGo`: if the accumulated time entering the loop
exceeds the budget by at most `excess`, the reported elapsed time exceeds the
budget by at most the larger of `excess` and one remaining round's duration —
the time check runs once per round boundary and a round in flight is never
preempted. -/
lemma loopGo_elapsed_le (cfg : LoopConfig) (oracle : Nat → RoundInput) :
    ∀ fuel iteration elapsed messages mem excess, elapsed ≤ cfg.maxTime + excess →
      ∀ {it el r m mm},
        loopGo cfg oracle fuel iteration elapsed messages mem = .report it el r m mm →
        el ≤ cfg.maxTime + max excess (maxRoundDuration oracle iteration fuel) := by
  intro fuel
  induction fuel with
  | zero =>
    intro iteration elapsed messages mem excess hexc it el r m mm h
    simp only [loopGo, LoopResult.report.injEq] at h
    have := le_max_left excess (maxRoundDuration oracle iteration 0)
    omega
  | succ fuel ih =>
    intro iteration elapsed messages mem excess hexc it el r m mm h
    have hd : maxRoundDuration oracle iteration (fuel + 1) =
        max (oracle (iteration + 1)).duration (maxRoundDuration oracle (iteration + 1) fuel) :=
      rfl
    simp only [loopGo] at h
    split at h
    · simp only [LoopResult.report.injEq] at h
      have := le_max_left excess (maxRoundDuration oracle iteration (fuel + 1))
      omega
    · rename_i hTime
      have hT : elapsed ≤ cfg.maxTime := by omega
      split at h
      · exact absurd h (by simp)
      · split at h
        · simp only [LoopResult.report.injEq] at h
          have h1 : (oracle (iteration + 1)).duration ≤
              maxRoundDuration oracle iteration (fuel + 1) := by
            rw [hd]; exact le_max_left _ _
          have h2 := le_max_right excess (maxRoundDuration oracle iteration (fuel + 1))
          omega
        · have hstep := ih (iteration + 1) (elapsed + (oracle (iteration + 1)).duration)
            _ _ (oracle (iteration + 1)).duration (by omega) h
          have h1 : maxRoundDuration oracle (iteration + 1) fuel ≤
              maxRoundDuration oracle iteration (fuel + 1) := by
            rw [hd]; exact le_max_right _ _
          have h2 : (oracle (iteration + 1)).duration ≤
              maxRoundDuration oracle iteration (fuel + 1) := by
            rw [hd]; exact le_max_left _ _
          have h3 := le_max_right excess (maxRoundDuration oracle iteration (fuel + 1))
          have h4 : max (oracle (iteration + 1)).duration
              (maxRoundDuration oracle (iteration + 1) fuel) ≤
              maxRoundDuration oracle iteration (fuel + 1) := by
            rw [hd]
          omega

/-- C3: at every termination of the implementation loop the iteration counter
is at most `max_iterations` — the loop body runs only while
`iteration < max_iterations` and increments the counter exactly once per
round. -/
theorem iteration_bound_c3 (cfg : LoopConfig) (oracle : Nat → RoundInput)
    (messages : List Message) (mem : MemoryState) (it el : Nat) (r : TermReason)
    (m : List Message) (mm : MemoryState)
    (h : pure_code_implementation_loop cfg oracle messages mem = .report it el r m mm) :
    it ≤ cfg.maxIterations := by
  unfold pure_code_implementation_loop at h
  have := loopGo_report_iterations_le cfg oracle cfg.maxIterations 0 0 messages mem h
  omega

/-- Oracle used by the loop witnesses: every round returns a completed model
call and consumes three time units. -/
def witnessOracle : Nat → RoundInput := fun _ =>
  { modelResult := .ok { content := "all files implemented", tool_calls := [] },
    toolResults := [], duration := 3, analysisLoop := false, filesCount := 0,
    completedFiles := [] }

/-- C3, witness: a zero-iteration configuration terminates immediately and the
reported counter satisfies the bound. -/
theorem iteration_bound_c3_witness :
    pure_code_implementation_loop ⟨0, 5000, "SYS"⟩ witnessOracle []
      (initMemoryState "plan") = .report 0 0 .maxIterations [] (initMemoryState "plan") ∧
    (0 : Nat) ≤ (⟨0, 5000, "SYS"⟩ : LoopConfig).maxIterations :=
  ⟨rfl, iteration_bound_c3 ⟨0, 5000, "SYS"⟩ witnessOracle [] (initMemoryState "plan")
    0 0 .maxIterations [] (initMemoryState "plan") rfl⟩

/-- C4: at every termination of the implementation loop the reported elapsed
time exceeds `max_time` by at most one round's duration — the elapsed-time
check runs exactly once per round boundary, before the model call, and a round
already in flight is never preempted, so the budget can be overrun by at most
the duration of a single round. -/
theorem wall_time_bound_c4 (cfg : LoopConfig) (oracle : Nat → RoundInput)
    (messages : List Message) (mem : MemoryState) (it el : Nat) (r : TermReason)
    (m : List Message) (mm : MemoryState)
    (h : pure_code_implementation_loop cfg oracle messages mem = .report it el r m mm) :
    el ≤ cfg.maxTime + maxRoundDuration oracle 0 cfg.maxIterations := by
  unfold pure_code_implementation_loop at h
  have := loopGo_elapsed_le cfg oracle cfg.maxIterations 0 0 messages mem 0 (by omega) h
  simpa using this

/-- C4, witness: the elapsed-time bound at a concrete terminating run. -/
theorem wall_time_bound_c4_witness :
    pure_code_implementation_loop ⟨0, 7, "SYS"⟩ witnessOracle []
      (initMemoryState "plan") = .report 0 0 .maxIterations [] (initMemoryState "plan") ∧
    (0 : Nat) ≤ (7 : Nat) + maxRoundDuration witnessOracle 0 0 :=
  ⟨rfl, wall_time_bound_c4 ⟨0, 7, "SYS"⟩ witnessOracle [] (initMemoryState "plan")
    0 0 .maxIterations [] (initMemoryState "plan") rfl⟩

/-- Every run of `loopGo` either produces a terminal report or aborts with the
message of a failed model call — no other input can produce an abort. -/
lemma loopGo_total (cfg : LoopConfig) (oracle : Nat → RoundInput) :
    ∀ fuel iteration elapsed messages mem,
      (∃ it el r m mm,
        loopGo cfg oracle fuel iteration elapsed messages mem = .report it el r m mm) ∨
      (∃ i e, loopGo cfg oracle fuel iteration elapsed messages mem = .fatal e ∧
        (oracle i).modelResult = .error e) := by
  intro fuel
  induction fuel with
  | zero =>
    intro iteration elapsed messages mem
    exact .inl ⟨iteration, elapsed, .maxIterations, messages, mem, rfl⟩
  | succ fuel ih =>
    intro iteration elapsed messages mem
    by_cases hTime : elapsed > cfg.maxTime
    · exact .inl ⟨iteration + 1, elapsed, .timeLimit, messages, mem, by
        simp [loopGo, hTime]⟩
    · cases hm : (oracle (iteration + 1)).modelResult with
      | error e =>
        exact .inr ⟨iteration + 1, e, by simp [loopGo, hTime, hm], hm⟩
      | ok resp =>
        cases hc : declaresComplete (effectiveContent resp.content) with
        | true =>
          exact .inl ⟨iteration + 1, elapsed + (oracle (iteration + 1)).duration,
            .complete,
            (roundBody cfg (oracle (iteration + 1)) resp messages mem).1,
            start_new_round (roundBody cfg (oracle (iteration + 1)) resp messages mem).2
              (iteration + 1),
            by simp [loopGo, hTime, hm, hc]⟩
        | false =>
          have hrec := ih (iteration + 1) (elapsed + (oracle (iteration + 1)).duration)
            (emergencyTrim cfg (oracle (iteration + 1)).filesCount
              (roundBody cfg (oracle (iteration + 1)) resp messages mem).1
              (start_new_round
                (roundBody cfg (oracle (iteration + 1)) resp messages mem).2
                (iteration + 1))).1
            (emergencyTrim cfg (oracle (iteration + 1)).filesCount
              (roundBody cfg (oracle (iteration + 1)) resp messages mem).1
              (start_new_round
                (roundBody cfg (oracle (iteration + 1)) resp messages mem).2
                (iteration + 1))).2
          have hstep : loopGo cfg oracle (fuel + 1) iteration elapsed messages mem =
              loopGo cfg oracle fuel (iteration + 1)
                (elapsed + (oracle (iteration + 1)).duration)
                (emergencyTrim cfg (oracle (iteration + 1)).filesCount
                  (roundBody cfg (oracle (iteration + 1)) resp messages mem).1
                  (start_new_round
                    (roundBody cfg (oracle (iteration + 1)) resp messages mem).2
                    (iteration + 1))).1
                (emergencyTrim cfg (oracle (iteration + 1)).filesCount
                  (roundBody cfg (oracle (iteration + 1)) resp messages mem).1
                  (start_new_round
                    (roundBody cfg (oracle (iteration + 1)) resp messages mem).2
                    (iteration + 1))).2 := by
            simp [loopGo, hTime, hm, hc]
          rw [hstep]
          exact hrec

/-- C5: a fatal model-call error is the only condition that aborts a run — for
every oracle behaviour (including tool errors, analysis loops, timeouts and
iteration exhaustion) `run_workflow` hands its caller either a normal terminal
report or an error result that carries the message of a failed model call. -/
theorem model_error_only_abort_c5 (cfg : LoopConfig) (oracle : Nat → RoundInput)
    (plan_content code_directory : String) :
    (∃ iterations elapsed reason,
      run_workflow_model cfg oracle plan_content code_directory =
        .success iterations elapsed reason) ∨
    (∃ i e, run_workflow_model cfg oracle plan_content code_directory = .error e ∧
      (oracle i).modelResult = .error e) := by
  rcases loopGo_total cfg oracle cfg.maxIterations 0 0
      (initialMessages plan_content code_directory) (initMemoryState plan_content) with
    ⟨it, el, r, m, mm, h⟩ | ⟨i, e, h, hm⟩
  · exact .inl ⟨it, el, r, by
      simp [run_workflow_model, pure_code_implementation_loop, h]⟩
  · exact .inr ⟨i, e, by
      simp [run_workflow_model, pure_code_implementation_loop, h], hm⟩

/-- C2: a round whose model call succeeded and whose time check passed leaves
the loop by declaring completion exactly when the (stripped, defaulted)
assistant text, lowercased, contains one of the fixed completion phrases; for
an assistant text containing none of them the loop continues past this
round. -/
theorem completion_iff_phrase_c2 (cfg : LoopConfig) (oracle : Nat → RoundInput)
    (fuel iteration elapsed : Nat) (messages : List Message) (mem : MemoryState)
    (resp : GptResponse)
    (hTime : elapsed ≤ cfg.maxTime)
    (hModel : (oracle (iteration + 1)).modelResult = .ok resp) :
    (∃ el m mm, loopGo cfg oracle (fuel + 1) iteration elapsed messages mem =
      .report (iteration + 1) el .complete m mm) ↔
    (∃ keyword ∈ completionKeywords,
      containsSub (lowerStr (effectiveContent resp.content)) keyword = true) := by
  have hTime' : ¬ elapsed > cfg.maxTime := by omega
  constructor
  · rintro ⟨el, m, mm, h⟩
    cases hc : declaresComplete (effectiveContent resp.content) with
    | true =>
      rw [declaresComplete, List.any_eq_true] at hc
      exact hc
    | false =>
      exfalso
      simp only [loopGo, hTime', if_false, hModel, hc] at h
      have := loopGo_complete_iterations_lt cfg oracle fuel (iteration + 1) _ _ _ h
      omega
  · intro hk
    have hc : declaresComplete (effectiveContent resp.content) = true := by
      rw [declaresComplete, List.any_eq_true]
      exact hk
    exact ⟨elapsed + (oracle (iteration + 1)).duration,
      (roundBody cfg (oracle (iteration + 1)) resp messages mem).1,
      start_new_round (roundBody cfg (oracle (iteration + 1)) resp messages mem).2
        (iteration + 1),
      by simp [loopGo, hTime', hModel, hc]⟩

/-- C2, witness: with a concrete response containing a completion phrase the
round declares completion. -/
theorem completion_iff_phrase_c2_witness :
    ∃ el m mm, loopGo ⟨500, 5000, "SYS"⟩ witnessOracle 500 0 0 []
      (initMemoryState "plan") = .report 1 el .complete m mm :=
  (completion_iff_phrase_c2 ⟨500, 5000, "SYS"⟩ witnessOracle 499 0 0 []
      (initMemoryState "plan") { content := "all files implemented", tool_calls := [] }
      (by omega) rfl).mpr
    ⟨"all files implemented", by decide, by decide⟩

end DeepCode
